import Mathlib

/-!
Verification of `calcium_imaging.py` (Veraszto et al. 2018).

The script is a batch pipeline: it classifies the files of a directory by
substring rules on their names, loads a control baseline and a UV reference,
min-max rescales the UV sequence, normalizes each recording as
`(raw - control) / control`, scans all produced `.csv` files for a global
min/max plotting range, and plots each `.csv` file.

Modelling conventions:
* Filenames are Lean `String`s; Python's substring / prefix tests on
  byte strings are modelled on the character list `String.data`.
* numpy float arrays are modelled as `List ℚ` (floating point is idealized
  as exact rational arithmetic; every value appearing in the properties
  checked here is small and exact).
* A numpy division whose denominator is zero yields a non-finite value
  (`nan` or `±inf`) together with a runtime warning, not an exception; we
  model a non-finite entry as `none : Option ℚ`.
* `np.genfromtxt(..., usecols=[1], skip_header=1)` is abstracted as the
  already-extracted signal column of each file.
-/

namespace CalciumImaging

/-- `'0' ≤ c ≤ '9'`, the digit class `\d` of the rate regex. -/
def isDigitCh (c : Char) : Bool := decide ('0' ≤ c) && decide (c ≤ '9')

/-- `isPrefixChars n l` : the character list `n` is a prefix of `l`. -/
def isPrefixChars : List Char → List Char → Bool
  | [], _ => true
  | _ :: _, [] => false
  | a :: as, b :: bs => a = b && isPrefixChars as bs

/-- `subChars n l` : `n` occurs as a contiguous sublist of `l`
(Python `n in l` on strings). -/
def subChars (n : List Char) : List Char → Bool
  | [] => isPrefixChars n []
  | c :: t => isPrefixChars n (c :: t) || subChars n t

/-- Python `needle in s` for strings. -/
def subStr (needle s : String) : Bool := subChars needle.data s.data

/-- Python `s[0:2] == p` for a two-character `p`, i.e. a prefix test. -/
def startsWithStr (p s : String) : Bool := isPrefixChars p.data s.data

/-- Python `s.endswith(p)` (used by the `.csv` walk at line 56). -/
def endsWithStr (p s : String) : Bool := isPrefixChars p.data.reverse s.data.reverse

/-- Python `s.find(sub)`: index of the first occurrence, `none` for `-1`
(line 48 `source_filename.find('_dt')`). -/
def findIdx (needle : List Char) : List Char → Option ℕ
  | [] => if isPrefixChars needle [] then some 0 else none
  | c :: t =>
    if isPrefixChars needle (c :: t) then some 0
    else (findIdx needle t).map (fun i => i + 1)

/-! ## File Classifier (lines 20–40)

The directory listing is a `List String` of plain-file names.  Line 21
re-encodes the names as UTF-8 byte strings, which does not change which
substrings they contain; we keep them as `String`s. -/

/-- Line 22: keep names containing `".txt"` (substring, not suffix). -/
def convertedfiles2 (files : List String) : List String :=
  files.filter (fun s => subStr ".txt" s)

/-- Line 23: keep names containing `"dt_"`. -/
def cafilesDt (files : List String) : List String :=
  (convertedfiles2 files).filter (fun s => subStr "dt_" s)

/-- Lines 25–26: the `osxbug` condition.  `s[0:2]=="._" in s` is the Python
chained comparison `s[0:2] == "._" and "._" in s`. -/
def osxbugPred (s : String) : Bool := startsWithStr "._" s && subStr "._" s

/-- Lines 25–27: drop resource-fork names (`osxbug`) and names containing
`"Normalized_Neuron."`.  Filenames in a directory are distinct, so removing
the members of the `osxbug` sublist is filtering on its predicate. -/
def cafilesClean (files : List String) : List String :=
  ((cafilesDt files).filter (fun s => ! osxbugPred s)).filter
    (fun s => ! subStr "Normalized_Neuron." s)

/-- Line 30: all candidates containing `"control"`. -/
def controlfile (files : List String) : List String :=
  (cafilesClean files).filter (fun s => subStr "control" s)

/-- Line 31 reads `controlfile[0]`: `none` models the `IndexError` raised
when no name matches; otherwise the first match is taken. -/
def controlSel (files : List String) : Option String := (controlfile files).head?

/-- Line 32: remove the control candidates. -/
def cafilesNoControl (files : List String) : List String :=
  (cafilesClean files).filter (fun s => ! subStr "control" s)

/-- Line 35: all remaining candidates containing `"UV"`. -/
def UVfile (files : List String) : List String :=
  (cafilesNoControl files).filter (fun s => subStr "UV" s)

/-- Line 36 reads `UVfile[0]`: `none` models the `IndexError` on no match. -/
def UVsel (files : List String) : Option String := (UVfile files).head?

/-- Line 40: the recording files handed to the batch loop (line 45). -/
def cafilesFinal (files : List String) : List String :=
  (cafilesNoControl files).filter (fun s => ! subStr "UV" s)

/-! ## numpy arithmetic helpers -/

/-- Elementwise numpy division: a zero denominator produces a non-finite
value (`nan`/`±inf`, with a runtime warning), modelled as `none`. -/
def npdiv (a b : ℚ) : Option ℚ := if b = 0 then none else some (a / b)

/-- `np.max` of a 1-D array.  numpy raises on an empty array; every array
scanned by the pipeline is a non-empty signal column, and the `[]` case of
this total model is never reached there. -/
def npMax : List ℚ → ℚ
  | [] => 0
  | h :: t => t.foldl max h

/-- `np.min` of a 1-D array (same remark on the empty case as `npMax`). -/
def npMin : List ℚ → ℚ
  | [] => 0
  | h :: t => t.foldl min h

/-- Line 37: `UVnorm = (UV - np.min(UV)) / (np.max(UV) - np.min(UV))`,
elementwise; a zero span makes every entry the non-finite `none`. -/
def UVnorm (uv : List ℚ) : List (Option ℚ) :=
  uv.map (fun v => npdiv (v - npMin uv) (npMax uv - npMin uv))

/-- Line 51: `dF_F = (raw - control) / control`, elementwise.  numpy
requires the two 1-D arrays to have equal shape (a genuine recording and
the baseline both have more than one sample, so no broadcasting applies);
`zipWith` together with an equal-length hypothesis models the arrays that
are actually processed. -/
def dF_F (raw control : List ℚ) : List (Option ℚ) :=
  List.zipWith (fun r c => npdiv (r - c) c) raw control

/-! ## Rate extraction (line 48)

`timerate = float(re.findall("[-+]?\d+[\.]?\d*[eE]?[-+]?\d*",
source_filename[source_filename.find('_dt'):len(source_filename)])[0])`.

`re.findall(...)[0]` is the leftmost match of the pattern; `none` models
the `IndexError` raised when there is no match and the `ValueError` raised
when `float` rejects the matched text. -/

/-- Greedy match of `[-+]?\d+[\.]?\d*[eE]?[-+]?\d*` anchored at the head of
`l` (every optional part matches greedily; no backtracking is needed since
each suffix of the pattern can match the empty string). -/
def matchNumAt (l : List Char) : Option (List Char) :=
  let p1 : List Char × List Char :=
    match l with
    | c :: r => if c = '-' ∨ c = '+' then ([c], r) else ([], l)
    | [] => ([], [])
  let ds := (p1.2.span isDigitCh).1
  let l2 := (p1.2.span isDigitCh).2
  if ds.isEmpty then none else
  let p3 : List Char × List Char :=
    match l2 with
    | c :: r => if c = '.' then ([c], r) else ([], l2)
    | [] => ([], l2)
  let ds2 := (p3.2.span isDigitCh).1
  let l4 := (p3.2.span isDigitCh).2
  let p5 : List Char × List Char :=
    match l4 with
    | c :: r => if c = 'e' ∨ c = 'E' then ([c], r) else ([], l4)
    | [] => ([], l4)
  let p6 : List Char × List Char :=
    match p5.2 with
    | c :: r => if c = '-' ∨ c = '+' then ([c], r) else ([], p5.2)
    | [] => ([], p5.2)
  let ds3 := (p6.2.span isDigitCh).1
  some (p1.1 ++ ds ++ p3.1 ++ ds2 ++ p5.1 ++ p6.1 ++ ds3)

/-- Leftmost match of the rate pattern in `l` (`re.findall(...)[0]`). -/
def findNum : List Char → Option (List Char)
  | [] => none
  | c :: t =>
    match matchNumAt (c :: t) with
    | some m => some m
    | none => findNum t

/-- Numeric value of a digit string. -/
def digitsToNat (ds : List Char) : ℕ :=
  ds.foldl (fun a c => 10 * a + (c.toNat - 48)) 0

/-- Python `float(...)` on a string of the shape produced by `matchNumAt`:
optional sign, digits, optional fraction, optional exponent; `none` models
the `ValueError` on leftovers such as `"5-"`, `"5e"` or `"5e-"`. -/
def parseFloat (l : List Char) : Option ℚ :=
  let p1 : Bool × List Char :=
    match l with
    | c :: r => if c = '-' then (true, r) else if c = '+' then (false, r) else (false, l)
    | [] => (false, [])
  let ip := (p1.2.span isDigitCh).1
  let l2 := (p1.2.span isDigitCh).2
  if ip.isEmpty then none else
  let p3 : List Char × List Char :=
    match l2 with
    | c :: r => if c = '.' then r.span isDigitCh else ([], l2)
    | [] => ([], l2)
  let base : ℚ := (digitsToNat ip : ℚ) + (digitsToNat p3.1 : ℚ) / (10 : ℚ) ^ p3.1.length
  let signed : ℚ := if p1.1 then -base else base
  match p3.2 with
  | [] => some signed
  | c :: r =>
    if c = 'e' ∨ c = 'E' then
      let p4 : Bool × List Char :=
        match r with
        | d :: r2 => if d = '-' then (true, r2) else if d = '+' then (false, r2) else (false, r)
        | [] => (false, [])
      let ed := (p4.2.span isDigitCh).1
      let rest := (p4.2.span isDigitCh).2
      if ed.isEmpty then none
      else if ! rest.isEmpty then none
      else some (if p4.1 then signed / (10 : ℚ) ^ digitsToNat ed
                 else signed * (10 : ℚ) ^ digitsToNat ed)
    else none

/-- Line 48: the rate parsed from a recording filename.  The slice
`s[s.find('_dt'):]` degenerates to the final character when `'_dt'` does
not occur (`find` returns `-1`, and `s[-1:]` is the last character). -/
def timerate (s : String) : Option ℚ :=
  let cs := s.data
  let region :=
    match findIdx ("_dt".data) cs with
    | some i => cs.drop i
    | none => cs.drop (cs.length - 1)
  (findNum region).bind parseFloat

/-! ## Range Scanner (lines 56–63) and Plotter (lines 66–113) -/

/-- Lines 60–61, one loop iteration: `if np.max(dF_F) > maxvalue:
maxvalue = np.max(dF_F)*1.1`. -/
def maxStep (m : ℚ) (f : List ℚ) : ℚ :=
  if npMax f > m then npMax f * 1.1 else m

/-- Lines 57–61: fold over the data of the discovered `.csv` files, in
walk order, seeded with `maxvalue = 0` (line 16). -/
def maxvalue (csvdata : List (List ℚ)) : ℚ :=
  csvdata.foldl maxStep 0

/-- Lines 62–63: the `np.min` test is written at indentation level 0,
outside the `for` loop, so after the loop it inspects only the data bound
to `dF_F` by the final iteration; `minvalue` keeps its seed `0` (line 17)
unless that last file's minimum is negative. -/
def minvalue (csvdata : List (List ℚ)) : ℚ :=
  match csvdata.getLast? with
  | none => 0
  | some f => if npMin f < 0 then npMin f else 0

/-- Line 56: `csvz`, every file under the working directory whose name ends
in `".csv"`.  The file system is modelled as a list of
(name, parsed contents) pairs. -/
def csvFiles (fs : List (String × List ℚ)) : List (String × List ℚ) :=
  fs.filter (fun p => endsWithStr ".csv" p.1)

/-- The scanner's final `maxvalue` over a modelled file system. -/
def maxvalueFS (fs : List (String × List ℚ)) : ℚ :=
  maxvalue ((csvFiles fs).map Prod.snd)

/-- Line 107 in `drawer`: the image is saved as `output_imagename[:-4] + ".png"`. -/
def pngName (s : String) : String :=
  String.mk (s.data.take (s.data.length - 4) ++ ".png".data)

/-- Lines 112–113: one `drawer` call, hence one image name, per `.csv` file. -/
def plots (fs : List (String × List ℚ)) : List String :=
  (csvFiles fs).map (fun p => pngName p.1)

/-! ## Helper lemmas -/

/-- Indexing a `zipWith` where both operands are defined. -/
lemma zipWith_getElem_some {α β γ : Type} (f : α → β → γ) :
    ∀ (as : List α) (bs : List β) (i : ℕ) (a : α) (b : β),
      as[i]? = some a → bs[i]? = some b → (List.zipWith f as bs)[i]? = some (f a b) := by
  intro as
  induction as with
  | nil => intro bs i a b ha _; simp at ha
  | cons x xs ih =>
    intro bs i a b ha hb
    cases bs with
    | nil => simp at hb
    | cons y ys =>
      cases i with
      | zero =>
        simp only [List.getElem?_cons_zero, Option.some.injEq] at ha hb
        simp [List.zipWith, ha, hb]
      | succ n =>
        simp only [List.getElem?_cons_succ] at ha hb
        simpa [List.zipWith] using ih ys n a b ha hb

/-- A fold of `max` stays at or below any bound dominating the seed and the
elements. -/
lemma foldl_max_le (c : ℚ) :
    ∀ (t : List ℚ) (a : ℚ), a ≤ c → (∀ x ∈ t, x ≤ c) → t.foldl max a ≤ c := by
  intro t
  induction t with
  | nil => intro a ha _; simpa using ha
  | cons x xs ih =>
    intro a ha hx
    simp only [List.foldl_cons]
    exact ih (max a x) (max_le ha (hx x (List.mem_cons_self x xs)))
      (fun y hy => hx y (List.mem_cons_of_mem x hy))

/-- `np.max` of a file whose values are all bounded by `c` is bounded by
`c`; the hypothesis `0 ≤ c` covers the model's (unreachable) empty case. -/
lemma npMax_le_of_forall_le {f : List ℚ} {c : ℚ} (hc : 0 ≤ c)
    (h : ∀ x ∈ f, x ≤ c) : npMax f ≤ c := by
  cases f with
  | nil => simpa [npMax] using hc
  | cons x xs =>
    exact foldl_max_le c xs x (h x (List.mem_cons_self x xs))
      (fun y hy => h y (List.mem_cons_of_mem x hy))

/-- The scan fold never exceeds `1.1 * M` once every file maximum is at
most `M` and the accumulator starts at or below `1.1 * M`. -/
lemma foldl_maxStep_le (M : ℚ) :
    ∀ (fss : List (List ℚ)) (m : ℚ), m ≤ 1.1 * M →
      (∀ f ∈ fss, npMax f ≤ M) → fss.foldl maxStep m ≤ 1.1 * M := by
  intro fss
  induction fss with
  | nil => intro m hm _; simpa using hm
  | cons f t ih =>
    intro m hm hf
    simp only [List.foldl_cons]
    refine ih (maxStep m f) ?_ (fun g hg => hf g (List.mem_cons_of_mem f hg))
    rw [maxStep]
    split
    · calc npMax f * 1.1 ≤ M * 1.1 := by
              have := hf f (List.mem_cons_self f t)
              nlinarith
        _ = 1.1 * M := mul_comm M 1.1
    · exact hm

/-- The scan fold is the identity when no file maximum beats the
accumulator. -/
lemma foldl_maxStep_const :
    ∀ (fss : List (List ℚ)) (m : ℚ), (∀ g ∈ fss, npMax g ≤ m) →
      fss.foldl maxStep m = m := by
  intro fss
  induction fss with
  | nil => intro m _; rfl
  | cons f t ih =>
    intro m hm
    simp only [List.foldl_cons]
    have hstep : maxStep m f = m := by
      rw [maxStep, if_neg]
      exact not_lt.mpr (hm f (List.mem_cons_self f t))
    rw [hstep]
    exact ih m (fun g hg => hm g (List.mem_cons_of_mem f hg))

/-- A `min`-fold from a smaller seed stays below a `max`-fold from a larger
seed over the same list. -/
lemma foldl_min_le_foldl_max :
    ∀ (t : List ℚ) (a b : ℚ), a ≤ b → t.foldl min a ≤ t.foldl max b := by
  intro t
  induction t with
  | nil => intro a b h; simpa using h
  | cons x xs ih =>
    intro a b h
    simp only [List.foldl_cons]
    exact ih (min a x) (max b x)
      (le_trans (min_le_left a x) (le_trans h (le_max_left b x)))

/-- `np.min` never exceeds `np.max` on a non-empty array. -/
lemma npMin_le_npMax {l : List ℚ} (h : l ≠ []) : npMin l ≤ npMax l := by
  obtain ⟨a, t, rfl⟩ := List.exists_cons_of_ne_nil h
  exact foldl_min_le_foldl_max t a a le_rfl

/-- A `min`-morphism commutes with a `min`-fold over a mapped list. -/
lemma foldl_min_map (f : ℚ → ℚ) (hf : ∀ a b, f (min a b) = min (f a) (f b)) :
    ∀ (t : List ℚ) (a : ℚ), (t.map f).foldl min (f a) = f (t.foldl min a) := by
  intro t
  induction t with
  | nil => intro a; rfl
  | cons x xs ih =>
    intro a
    simp only [List.map_cons, List.foldl_cons, ← hf a x]
    exact ih (min a x)

/-- A `max`-morphism commutes with a `max`-fold over a mapped list. -/
lemma foldl_max_map (f : ℚ → ℚ) (hf : ∀ a b, f (max a b) = max (f a) (f b)) :
    ∀ (t : List ℚ) (a : ℚ), (t.map f).foldl max (f a) = f (t.foldl max a) := by
  intro t
  induction t with
  | nil => intro a; rfl
  | cons x xs ih =>
    intro a
    simp only [List.map_cons, List.foldl_cons, ← hf a x]
    exact ih (max a x)

/-- A `min`-fold over a constant list is the constant. -/
lemma foldl_min_replicate : ∀ (n : ℕ) (c : ℚ), (List.replicate n c).foldl min c = c := by
  intro n
  induction n with
  | zero => intro c; rfl
  | succ m ih =>
    intro c
    simp only [List.replicate_succ, List.foldl_cons, min_self]
    exact ih c

/-- A `max`-fold over a constant list is the constant. -/
lemma foldl_max_replicate : ∀ (n : ℕ) (c : ℚ), (List.replicate n c).foldl max c = c := by
  intro n
  induction n with
  | zero => intro c; rfl
  | succ m ih =>
    intro c
    simp only [List.replicate_succ, List.foldl_cons, max_self]
    exact ih c

/-- An index hit of `getElem?` is a member of the list. -/
lemma mem_of_getElem_some {α : Type} :
    ∀ (l : List α) (i : ℕ) (a : α), l[i]? = some a → a ∈ l := by
  intro l
  induction l with
  | nil => intro i a ha; simp at ha
  | cons x xs ih =>
    intro i a ha
    cases i with
    | zero =>
      simp only [List.getElem?_cons_zero, Option.some.injEq] at ha
      exact ha ▸ List.mem_cons_self x xs
    | succ n =>
      simp only [List.getElem?_cons_succ] at ha
      exact List.mem_cons_of_mem x (ih n a ha)

end CalciumImaging

namespace CalciumImaging

/-! ## Claims -/

/-- Claim C1: for recordings `R` and control `C` of the same length with every
control sample nonzero, the normalized trace at index `i` is
`(R[i] - C[i]) / C[i]`; with control `[1,1,1,1]` and recording `[2,1,0,1]`
the output is `[1,0,-1,0]`. -/
theorem dF_F_spec (R C : List ℚ) (h : R.length = C.length)
    (hc : ∀ c ∈ C, c ≠ 0) :
    (∀ (i : ℕ) (r c : ℚ), R[i]? = some r → C[i]? = some c →
      (dF_F R C)[i]? = some (some ((r - c) / c)))
    ∧ dF_F [2, 1, 0, 1] [1, 1, 1, 1] = [some 1, some 0, some (-1), some 0] := by
  constructor
  · intro i r c hr hcc
    have hmem : c ∈ C := mem_of_getElem_some C i c hcc
    have : npdiv (r - c) c = some ((r - c) / c) := by
      simp [npdiv, hc c hmem]
    rw [dF_F, zipWith_getElem_some _ R C i r c hr hcc, this]
  · with_unfolding_all decide

/-- Witness for C1 at the end-to-end scenario of the spec. -/
theorem dF_F_spec_witness :
    dF_F [2, 1, 0, 1] [1, 1, 1, 1] = [some 1, some 0, some (-1), some 0] :=
  (dF_F_spec [2, 1, 0, 1] [1, 1, 1, 1] rfl (by decide)).2

/-- Claim C9: for every recording the Normalizer can process (its signal has
the control's length, as the elementwise numpy operation requires), the
normalized trace has exactly the recording's length. -/
theorem dF_F_length (R C : List ℚ) (h : R.length = C.length) :
    (dF_F R C).length = R.length := by
  simp [dF_F, List.length_zipWith, h]

/-- Witness for C9 at the end-to-end scenario of the spec. -/
theorem dF_F_length_witness :
    (dF_F [2, 1, 0, 1] [1, 1, 1, 1]).length = [2, 1, 0, 1].length :=
  dF_F_length [2, 1, 0, 1] [1, 1, 1, 1] rfl

/-- Counterexample to claim C2: with two trace files of maxima `10` and
`21/2`, the true batch maximum `21/2` is positive, yet the final `maxvalue`
is `11 = 1.1 * 10`, not `1.1 * (21/2)`: the second file's maximum is
compared against the already scaled running value `11` and loses. -/
theorem maxvalue_claim_cex :
    maxvalue [[10], [21/2]] = 11
    ∧ npMax [10, 21/2] = 21/2
    ∧ (0 : ℚ) < 21/2
    ∧ (11 : ℚ) ≠ 1.1 * (21/2) := by
  with_unfolding_all decide

/-- Claim C2 amended: the final `maxvalue` is the `0` seed when every trace
value is `≤ 0`; when every file maximum is at most a positive `M`, the
final value is at most `1.1 * M`, with equality whenever the first scanned
file attains `M` (a later file only updates the running value if its
maximum exceeds the previous maximum by more than 10%). -/
theorem maxvalue_amended (fss : List (List ℚ)) :
    ((∀ f ∈ fss, ∀ x ∈ f, x ≤ 0) → maxvalue fss = 0)
    ∧ (∀ M : ℚ, 0 < M → (∀ f ∈ fss, npMax f ≤ M) → maxvalue fss ≤ 1.1 * M)
    ∧ (∀ (M : ℚ) (f : List ℚ) (rest : List (List ℚ)), fss = f :: rest →
        npMax f = M → 0 < M → (∀ g ∈ rest, npMax g ≤ M) →
        maxvalue fss = 1.1 * M) := by
  refine ⟨?_, ?_, ?_⟩
  · intro h
    rw [maxvalue]
    refine foldl_maxStep_const fss 0 (fun g hg => ?_)
    exact npMax_le_of_forall_le le_rfl (h g hg)
  · intro M hM hf
    rw [maxvalue]
    exact foldl_maxStep_le M fss 0 (by nlinarith) hf
  · intro M f rest hfss hf hM hrest
    subst hfss
    rw [maxvalue, List.foldl_cons]
    have hstep : maxStep 0 f = 1.1 * M := by
      rw [maxStep, hf, if_pos hM, mul_comm]
    rw [hstep]
    refine foldl_maxStep_const rest (1.1 * M) (fun g hg => ?_)
    calc npMax g ≤ M := hrest g hg
      _ ≤ 1.1 * M := by nlinarith

/-- Witness for the amended C2: the seed case, the bound, and the
first-file equality at concrete batches. -/
theorem maxvalue_amended_witness :
    maxvalue [[-1], [-2]] = 0
    ∧ maxvalue [[1, 2], [1]] ≤ 1.1 * 2
    ∧ maxvalue [[1, 2], [1]] = 1.1 * 2 :=
  ⟨(maxvalue_amended [[-1], [-2]]).1 (by decide),
   (maxvalue_amended [[1, 2], [1]]).2.1 2 (by decide) (by decide),
   (maxvalue_amended [[1, 2], [1]]).2.2 2 [1, 2] [[1]] rfl (by decide)
     (by decide) (by decide)⟩

/-- Claim C3, evaluating the code at the failing batch: for trace files
with values `[-1/5, 4/5]` and `[-1/10, 6/5]`, the code's final `minvalue`
is `-1/10`, not the batch minimum `-1/5` the claim states: the
`if np.min(dF_F) < minvalue` test at line 62 sits outside the scan loop
and sees only the last file. -/
theorem minvalue_last_file_only :
    minvalue [[-1/5, 4/5], [-1/10, 6/5]] = -1/10
    ∧ ((-1 : ℚ)/10) ≠ -1/5 := by
  with_unfolding_all decide

/-- Counterexample to claim C4: the rate extraction does not return `5.0`
for the recording filename `"dt_5_Values.txt"`.  Line 48 searches for the
marker `'_dt'` (not `'dt_'`); it is absent from this name, `find` returns
`-1`, the searched region degenerates to the final character `"t"`, the
regex finds no match, and `[0]` raises an `IndexError` (modelled `none`). -/
theorem timerate_claim_cex : timerate "dt_5_Values.txt" = none := by decide

/-- Claim C4 amended: the rate extraction returns the first signed decimal
substring after the marker `'_dt'`, e.g. `5.0` for
`"Neuron_dt_5_Values.txt"`; when the marker is absent — as in the spec's
own example `"dt_5_Values.txt"`, which the classifier accepts because it
contains `'dt_'` — the extraction fails with an `IndexError`. -/
theorem timerate_amended :
    timerate "Neuron_dt_5_Values.txt" = some 5
    ∧ timerate "dt_5_Values.txt" = none := by
  with_unfolding_all decide

/-- Claim C5: for a UV sequence whose minimum and maximum differ, the
rescaling maps each value `v` linearly to `(v - min) / (max - min)`, the
rescaled minimum is `0` and the rescaled maximum is `1`; UV input
`[0, 5, 10]` yields `[0, 1/2, 1]`. -/
theorem UVnorm_minmax (uv : List ℚ) (h : uv ≠ []) (hne : npMin uv ≠ npMax uv) :
    UVnorm uv = uv.map (fun v => some ((v - npMin uv) / (npMax uv - npMin uv)))
    ∧ npMin (uv.map (fun v => (v - npMin uv) / (npMax uv - npMin uv))) = 0
    ∧ npMax (uv.map (fun v => (v - npMin uv) / (npMax uv - npMin uv))) = 1
    ∧ UVnorm [0, 5, 10] = [some 0, some (1/2), some 1] := by
  obtain ⟨a, t, rfl⟩ := List.exists_cons_of_ne_nil h
  have hlt : npMin (a :: t) < npMax (a :: t) :=
    lt_of_le_of_ne (npMin_le_npMax h) hne
  have hd : (0 : ℚ) < npMax (a :: t) - npMin (a :: t) := sub_pos.mpr hlt
  have hdne : npMax (a :: t) - npMin (a :: t) ≠ 0 := ne_of_gt hd
  set f : ℚ → ℚ :=
    fun v => (v - npMin (a :: t)) / (npMax (a :: t) - npMin (a :: t)) with hf
  have hmono : Monotone f :=
    fun x y hxy => (div_le_div_iff_of_pos_right hd).mpr (sub_le_sub_right hxy _)
  refine ⟨?_, ?_, ?_, ?_⟩
  · rw [UVnorm]
    exact List.map_congr_left (fun x _ => by simp [npdiv, hdne])
  · have hcomm : npMin ((a :: t).map f) = f (npMin (a :: t)) := by
      rw [List.map_cons]
      show (t.map f).foldl min (f a) = f (npMin (a :: t))
      rw [foldl_min_map f (fun x y => hmono.map_min) t a]
      rfl
    rw [hcomm, hf]
    simp only [sub_self, zero_div]
  · have hcomm : npMax ((a :: t).map f) = f (npMax (a :: t)) := by
      rw [List.map_cons]
      show (t.map f).foldl max (f a) = f (npMax (a :: t))
      rw [foldl_max_map f (fun x y => hmono.map_max) t a]
      rfl
    rw [hcomm, hf]
    simp only
    rw [div_self hdne]
  · with_unfolding_all decide

/-- Witness for C5 at the UV scenario of the spec. -/
theorem UVnorm_minmax_witness :
    UVnorm [0, 5, 10] = [some 0, some (1/2), some 1] :=
  (UVnorm_minmax [0, 5, 10] (by decide) (by decide)).2.2.2

/-- Counterexample to claim C6: rescaling the constant UV sequence `[5, 5]`
does not raise an error; numpy evaluates `0 / 0` for each entry, emits a
runtime warning, and the result is an array of `nan` (modelled `none`)
that is then silently written to `UV.csv`. -/
theorem UVnorm_const_cex : UVnorm [5, 5] = [none, none] := by
  with_unfolding_all decide

/-- Claim C6 amended: rescaling a constant UV sequence silently produces a
`nan` (non-finite, modelled `none`) value at every position instead of
raising a division-by-zero error. -/
theorem UVnorm_const_amended (c : ℚ) (n : ℕ) :
    UVnorm (List.replicate n c) = List.replicate n none := by
  cases n with
  | zero => rfl
  | succ m =>
    have hmin : npMin (List.replicate (m + 1) c) = c := by
      rw [List.replicate_succ]
      show (List.replicate m c).foldl min c = c
      exact foldl_min_replicate m c
    have hmax : npMax (List.replicate (m + 1) c) = c := by
      rw [List.replicate_succ]
      show (List.replicate m c).foldl max c = c
      exact foldl_max_replicate m c
    rw [UVnorm]
    simp only [hmin, hmax, List.map_replicate, sub_self]
    simp [npdiv]

/-- Claim C7: a directory with exactly `control_dt_1.txt`, `UV_dt_1.txt`,
`dt_2_Values.txt` and the resource-fork artifact `._dt_2_Values.txt`
classifies into exactly one control file, one UV file and one recording
file, with the artifact in none of the three sets. -/
theorem classify_scenario :
    controlfile ["control_dt_1.txt", "UV_dt_1.txt", "dt_2_Values.txt",
        "._dt_2_Values.txt"] = ["control_dt_1.txt"]
    ∧ UVfile ["control_dt_1.txt", "UV_dt_1.txt", "dt_2_Values.txt",
        "._dt_2_Values.txt"] = ["UV_dt_1.txt"]
    ∧ cafilesFinal ["control_dt_1.txt", "UV_dt_1.txt", "dt_2_Values.txt",
        "._dt_2_Values.txt"] = ["dt_2_Values.txt"] := by
  decide

/-- Counterexample to claim C8: with two files matching the control
designation, classification does not surface an error — `controlfile[0]`
silently takes the first match in listing order. -/
theorem controlSel_multi_cex :
    (controlfile ["control_A_dt_1.txt", "control_B_dt_1.txt", "UV_dt_1.txt",
        "dt_2_Values.txt"]).length = 2
    ∧ controlSel ["control_A_dt_1.txt", "control_B_dt_1.txt", "UV_dt_1.txt",
        "dt_2_Values.txt"] = some "control_A_dt_1.txt" := by
  decide

/-- Claim C8 amended: with zero matches for the control (or UV)
designation the `[0]` subscript raises an `IndexError` (modelled `none`);
with one or more matches the first match in listing order is taken
silently, so multiple matches surface no error. -/
theorem controlSel_amended (files : List String) :
    (controlfile files = [] → controlSel files = none)
    ∧ (∀ (c : String) (rest : List String),
        controlfile files = c :: rest → controlSel files = some c)
    ∧ (UVfile files = [] → UVsel files = none)
    ∧ (∀ (u : String) (rest : List String),
        UVfile files = u :: rest → UVsel files = some u) := by
  refine ⟨?_, ?_, ?_, ?_⟩
  · intro h; rw [controlSel, h]; rfl
  · intro c rest h; rw [controlSel, h]; rfl
  · intro h; rw [UVsel, h]; rfl
  · intro u rest h; rw [UVsel, h]; rfl

/-- Witness for the amended C8: a directory without a control file fails
with `none`; a directory with two control files yields the first. -/
theorem controlSel_amended_witness :
    controlSel ["dt_1_Values.txt"] = none
    ∧ controlSel ["control_A_dt_1.txt", "control_B_dt_1.txt"] =
        some "control_A_dt_1.txt" :=
  ⟨(controlSel_amended ["dt_1_Values.txt"]).1 (by decide),
   (controlSel_amended ["control_A_dt_1.txt", "control_B_dt_1.txt"]).2.1
     "control_A_dt_1.txt" ["control_B_dt_1.txt"] (by decide)⟩

/-- Claim C10: whenever the written UV reference `UV.csv` is among the
files under the working directory, the `.csv` walk picks it up, so it
receives its own plot image `UV.png`; and it contributes to the batch
maximum — scanning `UV.csv` (values `[0, 1/2, 1]`) together with a trace
`2_.csv` (value `[1/2]`) yields `1.1 * 1 = 11/10`, while the trace alone
would yield `11/20`. -/
theorem csv_includes_UV (fs : List (String × List ℚ)) (uv : List ℚ)
    (h : ("UV.csv", uv) ∈ fs) :
    ("UV.csv", uv) ∈ csvFiles fs
    ∧ "UV.png" ∈ plots fs
    ∧ maxvalueFS [("UV.csv", [0, 1/2, 1]), ("2_.csv", [1/2])] = 11/10
    ∧ maxvalueFS [("2_.csv", [1/2])] = 11/20 := by
  have hmem : ("UV.csv", uv) ∈ csvFiles fs :=
    List.mem_filter.mpr ⟨h, show endsWithStr ".csv" "UV.csv" = true by decide⟩
  refine ⟨hmem, ?_, ?_, ?_⟩
  · exact List.mem_map.mpr
      ⟨("UV.csv", uv), hmem, show pngName "UV.csv" = "UV.png" by decide⟩
  · with_unfolding_all decide
  · with_unfolding_all decide

/-- Witness for C10 at a one-file file system holding `UV.csv`. -/
theorem csv_includes_UV_witness :
    ("UV.csv", [(0 : ℚ)]) ∈ csvFiles [("UV.csv", [(0 : ℚ)])]
    ∧ "UV.png" ∈ plots [("UV.csv", [(0 : ℚ)])]
    ∧ maxvalueFS [("UV.csv", [0, 1/2, 1]), ("2_.csv", [1/2])] = 11/10
    ∧ maxvalueFS [("2_.csv", [1/2])] = 11/20 :=
  csv_includes_UV [("UV.csv", [(0 : ℚ)])] [(0 : ℚ)] (by decide)

end CalciumImaging
